import Mathlib

/-!
Shallow embedding of the mdump MySQL backup/restore tool (`mdump.py`).

Strings are modelled as Lean `String` / `List Char` (Python `str` over the
ASCII fragment the tool manipulates).  File systems are modelled as finite
sets of path strings; the external collaborators (the MySQL connection,
`mysqldump`, `mysql`, the terminal prompts) are modelled as explicit
environments of response functions, exactly mirroring the branching of the
source.
-/

namespace Mdump

/-- ASCII whitespace stripped by Python `str.strip()` (the tool only ever
meets ASCII input). -/
def pyWs : List Char := [' ', '\t', '\n', '\r', '\x0b', '\x0c']

/-- Python `str.strip()`: remove leading and trailing whitespace. -/
def pyStripL (l : List Char) : List Char :=
  ((l.dropWhile (fun c => pyWs.contains c)).reverse.dropWhile
    (fun c => pyWs.contains c)).reverse

/-- Python `s.split(c)` for a single-character separator `c` (no maxsplit):
`"".split(',') = ['']`. -/
def splitChar (c : Char) : List Char → List (List Char)
  | [] => [[]]
  | x :: xs =>
    if x = c then [] :: splitChar c xs
    else
      match splitChar c xs with
      | [] => [[x]]
      | r :: rs => (x :: r) :: rs

/-- Python `c in s` for a character `c`. -/
def containsC (c : Char) (l : List Char) : Bool := l.any (fun x => x = c)

/-- Python `s.split(c, 1)` when `c` occurs in `s`: the part before the first
occurrence and the part after it. -/
def splitFirst (c : Char) : List Char → List Char × List Char
  | [] => ([], [])
  | x :: xs =>
    if x = c then ([], xs)
    else
      let r := splitFirst c xs
      (x :: r.1, r.2)

/-- Digit tail of a Python integer literal: decimal digits with single
underscores allowed between digits (PEP 515), accumulating the value. -/
def digitsRest : List Char → ℕ → Option ℕ
  | [], acc => some acc
  | c :: cs, acc =>
    if c = '_' then
      match cs with
      | [] => none
      | d :: cs' =>
        if d.isDigit then digitsRest cs' (10 * acc + (d.toNat - 48)) else none
    else if c.isDigit then digitsRest cs (10 * acc + (c.toNat - 48))
    else none

/-- Unsigned decimal integer: at least one digit, then `digitsRest`. -/
def pyUnsigned : List Char → Option ℕ
  | [] => none
  | c :: cs => if c.isDigit then digitsRest cs (c.toNat - 48) else none

/-- Signed integer body after stripping: optional `+`/`-`, then digits. -/
def pyIntAux : List Char → Option ℤ
  | [] => none
  | c :: cs =>
    if c = '+' then (pyUnsigned cs).map (fun n => (n : ℤ))
    else if c = '-' then (pyUnsigned cs).map (fun n => -(n : ℤ))
    else (pyUnsigned (c :: cs)).map (fun n => (n : ℤ))

/-- Python `int(s)` on a decimal string: strips whitespace, then an optional
sign and digits; `none` models the `ValueError` it raises otherwise. -/
def pythonInt (l : List Char) : Option ℤ := pyIntAux (pyStripL l)

/-- The distinguishable failure kinds of `parse_selection`: in the source all
three are `ValueError`s carrying distinct messages
(`invalid literal for int() ...`, `Invalid range: {part}`,
`Number out of range: {num}`). -/
inductive ParseErr where
  | notANumber (tok : List Char)
  | invalidRange (tok : List Char)
  | outOfRange (n : ℤ)
deriving DecidableEq, Repr

/-- Python `range(s, e + 1)` as an ascending list of integers. -/
def rangeIcc (s e : ℤ) : List ℤ :=
  (List.range (e + 1 - s).toNat).map (fun i : ℕ => s + (i : ℤ))

/-- Python `set.update` / repeated `set.add`: the set is modelled as a
duplicate-free list, each element added only if not yet present. -/
def setAddAll (acc : List ℤ) (new : List ℤ) : List ℤ :=
  new.foldl (fun l n => List.insert n l) acc

/-- One token of `MySQLBackupTool.parse_selection`'s loop body: strip the
part; if it contains `-` treat it as a `start-end` range (`split('-', 1)`,
`int` both halves, bounds check), otherwise as a single integer with a
bounds check.  Returns the indices the token denotes. -/
def parseToken (max_num : ℕ) (part : List Char) : Except ParseErr (List ℤ) :=
  let p := pyStripL part
  if containsC '-' p then
    let halves := splitFirst '-' p
    match pythonInt halves.1 with
    | none => .error (.notANumber (pyStripL halves.1))
    | some s =>
      match pythonInt halves.2 with
      | none => .error (.notANumber (pyStripL halves.2))
      | some e =>
        if s < 1 ∨ (max_num : ℤ) < e ∨ e < s then .error (.invalidRange p)
        else .ok (rangeIcc s e)
  else
    match pythonInt p with
    | none => .error (.notANumber p)
    | some n =>
      if n < 1 ∨ (max_num : ℤ) < n then .error (.outOfRange n)
      else .ok [n]

/-- The accumulation loop of `parse_selection`: `indices` starts as `set()`
and each token's indices are added (`update`/`add`). -/
def parseParts (max_num : ℕ) : List (List Char) → List ℤ → Except ParseErr (List ℤ)
  | [], acc => .ok acc
  | p :: ps, acc =>
    match parseToken max_num p with
    | .error e => .error e
    | .ok s => parseParts max_num ps (setAddAll acc s)

/-- `MySQLBackupTool.parse_selection(selection, max_num)`: split on `,`,
parse every token, return `sorted(indices)` (Python's `sorted` on a set,
modelled extensionally by insertion sort of the duplicate-free list). -/
def parse_selection (selection : String) (max_num : ℕ) : Except ParseErr (List ℤ) :=
  match parseParts max_num (splitChar ',' selection.data) [] with
  | .error e => .error e
  | .ok s => .ok (s.insertionSort (· ≤ ·))

/-- A selection token as the claim describes it: after stripping, either a
single integer whose value lies in `[1, max_num]`, or a `start-end` range
(both halves integers) with `1 ≤ start ≤ end ≤ max_num`. -/
def tokenValid (max_num : ℕ) (part : List Char) : Prop :=
  (containsC '-' (pyStripL part) = false ∧
    ∃ n : ℤ, pythonInt (pyStripL part) = some n ∧ 1 ≤ n ∧ n ≤ (max_num : ℤ)) ∨
  (containsC '-' (pyStripL part) = true ∧
    ∃ s e : ℤ, pythonInt (splitFirst '-' (pyStripL part)).1 = some s ∧
      pythonInt (splitFirst '-' (pyStripL part)).2 = some e ∧
      1 ≤ s ∧ s ≤ e ∧ e ≤ (max_num : ℤ))

/-- The indices a selection token refers to: `{n}` for a single integer,
`{start..end}` for a range, and nothing when it does not parse. -/
def tokenIndices (part : List Char) : List ℤ :=
  let p := pyStripL part
  if containsC '-' p then
    match pythonInt (splitFirst '-' p).1, pythonInt (splitFirst '-' p).2 with
    | some s, some e => rangeIcc s e
    | _, _ => []
  else
    match pythonInt p with
    | some n => [n]
    | none => []

lemma mem_rangeIcc {n s e : ℤ} : n ∈ rangeIcc s e ↔ s ≤ n ∧ n ≤ e := by
  simp only [rangeIcc, List.mem_map, List.mem_range]
  constructor
  · rintro ⟨i, hi, rfl⟩
    omega
  · rintro ⟨h1, h2⟩
    exact ⟨(n - s).toNat, by omega, by omega⟩

lemma parseToken_of_valid (m : ℕ) (part : List Char) (h : tokenValid m part) :
    parseToken m part = .ok (tokenIndices part) := by
  rcases h with ⟨hc, n, hn, h1, h2⟩ | ⟨hc, s, e, hs, he, h1, h2, h3⟩
  · simp only [parseToken, tokenIndices, hc, hn, Bool.false_eq_true, if_false]
    rw [if_neg (by omega)]
  · simp only [parseToken, tokenIndices, hc, hs, he, if_true]
    rw [if_neg (by omega)]

lemma setAddAll_cons (acc : List ℤ) (x : ℤ) (xs : List ℤ) :
    setAddAll acc (x :: xs) = setAddAll (List.insert x acc) xs := rfl

lemma mem_setAddAll {a : ℤ} (new acc : List ℤ) :
    a ∈ setAddAll acc new ↔ a ∈ acc ∨ a ∈ new := by
  induction new generalizing acc with
  | nil => simp [setAddAll]
  | cons x xs ih =>
    rw [setAddAll_cons, ih]
    simp [List.mem_insert_iff]
    tauto

lemma nodup_setAddAll (new acc : List ℤ) (h : acc.Nodup) :
    (setAddAll acc new).Nodup := by
  induction new generalizing acc with
  | nil => exact h
  | cons x xs ih => exact ih _ h.insert

lemma parseParts_of_valid (m : ℕ) (ps : List (List Char)) :
    ∀ acc : List ℤ, (∀ p ∈ ps, tokenValid m p) →
    ∃ r, parseParts m ps acc = .ok r ∧ (acc.Nodup → r.Nodup) ∧
      ∀ n : ℤ, n ∈ r ↔ n ∈ acc ∨ ∃ p ∈ ps, n ∈ tokenIndices p := by
  induction ps with
  | nil =>
    intro acc _
    exact ⟨acc, rfl, id, by simp⟩
  | cons p ps ih =>
    intro acc h
    have hp := parseToken_of_valid m p (h p (by simp))
    obtain ⟨r, hr, hnd, hmem⟩ :=
      ih (setAddAll acc (tokenIndices p)) (fun q hq => h q (by simp [hq]))
    refine ⟨r, ?_, ?_, ?_⟩
    · simp [parseParts, hp, hr]
    · intro hacc
      exact hnd (nodup_setAddAll _ _ hacc)
    · intro n
      rw [hmem n, mem_setAddAll]
      simp only [List.mem_cons]
      constructor
      · rintro (⟨h1 | h1⟩ | ⟨q, hq, h1⟩)
        · exact Or.inl h1
        · exact Or.inr ⟨p, Or.inl rfl, h1⟩
        · exact Or.inr ⟨q, Or.inr hq, h1⟩
      · rintro (h1 | ⟨q, hq | hq, h1⟩)
        · exact Or.inl (Or.inl h1)
        · exact Or.inl (Or.inr (hq ▸ h1))
        · exact Or.inr ⟨q, hq, h1⟩

/-- C2: for every selection string made only of comma-separated
single-integer tokens and `start-end` range tokens whose referenced indices
all lie within `[1, max_num]`, `parse_selection` succeeds and returns
exactly the deduplicated, ascending-sorted union of the referenced
indices. -/
theorem parse_selection_valid_union (sel : String) (max_num : ℕ)
    (h : ∀ p ∈ splitChar ',' sel.data, tokenValid max_num p) :
    ∃ L, parse_selection sel max_num = .ok L ∧ List.Sorted (· < ·) L ∧
      ∀ n : ℤ, n ∈ L ↔ ∃ p ∈ splitChar ',' sel.data, n ∈ tokenIndices p := by
  obtain ⟨r, hr, hnd, hmem⟩ := parseParts_of_valid max_num _ [] h
  refine ⟨r.insertionSort (· ≤ ·), ?_, ?_, ?_⟩
  · simp [parse_selection, hr]
  · have hs := List.sorted_insertionSort (α := ℤ) (· ≤ ·) r
    have hperm := List.perm_insertionSort (α := ℤ) (· ≤ ·) r
    exact hs.lt_of_le (hperm.nodup_iff.mpr (hnd List.nodup_nil))
  · intro n
    rw [(List.perm_insertionSort (α := ℤ) (· ≤ ·) r).mem_iff, hmem n]
    simp

/-- Witness for C2 at the spec's own example `parse("1,3-5,7", 7)`. -/
theorem parse_selection_valid_union_witness :
    (∃ L, parse_selection "1,3-5,7" 7 = .ok L ∧ List.Sorted (· < ·) L ∧
      ∀ n : ℤ, n ∈ L ↔ ∃ p ∈ splitChar ',' "1,3-5,7".data, n ∈ tokenIndices p) ∧
    parse_selection "1,3-5,7" 7 = .ok [1, 3, 4, 5, 7] := by
  constructor
  · apply parse_selection_valid_union
    intro p hp
    have hsplit : splitChar ',' "1,3-5,7".data = [['1'], ['3', '-', '5'], ['7']] := rfl
    rw [hsplit] at hp
    simp only [List.mem_cons, List.not_mem_nil, or_false] at hp
    rcases hp with rfl | rfl | rfl
    · exact Or.inl ⟨rfl, 1, rfl, by norm_num, by norm_num⟩
    · exact Or.inr ⟨rfl, 3, 5, rfl, rfl, by norm_num, by norm_num, by norm_num⟩
    · exact Or.inl ⟨rfl, 7, rfl, by norm_num, by norm_num⟩
  · rfl

lemma parseParts_error_iff (m : ℕ) (ps : List (List Char)) :
    ∀ (acc : List ℤ) (e : ParseErr), parseParts m ps acc = .error e ↔
      ∃ l p r, ps = l ++ p :: r ∧ (∀ q ∈ l, ∃ S, parseToken m q = .ok S) ∧
        parseToken m p = .error e := by
  induction ps with
  | nil =>
    intro acc e
    simp only [parseParts]
    constructor
    · intro he
      cases he
    · rintro ⟨l, p, r, hps, -, -⟩
      exact absurd hps (by simp)
  | cons p0 ps ih =>
    intro acc e
    cases h0 : parseToken m p0 with
    | error e0 =>
      simp only [parseParts, h0]
      constructor
      · intro he
        refine ⟨[], p0, ps, rfl, by simp, ?_⟩
        rw [h0]
        exact he
      · rintro ⟨l, p, r, hps, hok, herr⟩
        cases l with
        | nil =>
          simp only [List.nil_append, List.cons.injEq] at hps
          obtain ⟨rfl, rfl⟩ := hps
          rw [h0] at herr
          exact herr
        | cons q l' =>
          simp only [List.cons_append, List.cons.injEq] at hps
          obtain ⟨rfl, -⟩ := hps
          obtain ⟨S, hS⟩ := hok p0 (by simp)
          rw [h0] at hS
          cases hS
    | ok S =>
      simp only [parseParts, h0]
      rw [ih]
      constructor
      · rintro ⟨l, p, r, hps, hok, herr⟩
        refine ⟨p0 :: l, p, r, by rw [hps, List.cons_append], ?_, herr⟩
        intro q hq
        rcases List.mem_cons.mp hq with rfl | hq'
        · exact ⟨S, h0⟩
        · exact hok q hq'
      · rintro ⟨l, p, r, hps, hok, herr⟩
        cases l with
        | nil =>
          simp only [List.nil_append, List.cons.injEq] at hps
          obtain ⟨rfl, -⟩ := hps
          rw [h0] at herr
          cases herr
        | cons q l' =>
          simp only [List.cons_append, List.cons.injEq] at hps
          obtain ⟨rfl, hps'⟩ := hps
          exact ⟨l', p, r, hps', fun q' hq' => hok q' (by simp [hq']), herr⟩

lemma parse_selection_error_iff_parseParts (sel : String) (m : ℕ) (e : ParseErr) :
    parse_selection sel m = .error e ↔
      parseParts m (splitChar ',' sel.data) [] = .error e := by
  unfold parse_selection
  cases h : parseParts m (splitChar ',' sel.data) [] <;> simp

/-- C5: `parse_selection` fails with `InvalidRange` exactly when a range
token has `start > end`, `start < 1` or `end > max_num`; with `OutOfRange`
exactly when a single-integer token's value is `< 1` or `> max_num`; with
`NotANumber` exactly when a token (or a half of a range token) is not
parseable as an integer; and a failing `parse_selection` run reports the
kind of the first failing token, so the failures are distinguishable by
kind. -/
theorem parse_selection_error_kinds (max_num : ℕ) :
    (∀ part s e, containsC '-' (pyStripL part) = true →
      pythonInt (splitFirst '-' (pyStripL part)).1 = some s →
      pythonInt (splitFirst '-' (pyStripL part)).2 = some e →
      (parseToken max_num part = .error (ParseErr.invalidRange (pyStripL part)) ↔
        (s > e ∨ s < 1 ∨ (max_num : ℤ) < e))) ∧
    (∀ part n, containsC '-' (pyStripL part) = false →
      pythonInt (pyStripL part) = some n →
      (parseToken max_num part = .error (ParseErr.outOfRange n) ↔
        (n < 1 ∨ (max_num : ℤ) < n))) ∧
    (∀ part, (∃ t, parseToken max_num part = .error (ParseErr.notANumber t)) ↔
      ((containsC '-' (pyStripL part) = false ∧ pythonInt (pyStripL part) = none) ∨
       (containsC '-' (pyStripL part) = true ∧
         (pythonInt (splitFirst '-' (pyStripL part)).1 = none ∨
          pythonInt (splitFirst '-' (pyStripL part)).2 = none)))) ∧
    (∀ (sel : String) (e : ParseErr), parse_selection sel max_num = .error e ↔
      ∃ l p r, splitChar ',' sel.data = l ++ p :: r ∧
        (∀ q ∈ l, ∃ S, parseToken max_num q = .ok S) ∧
        parseToken max_num p = .error e) := by
  refine ⟨?_, ?_, ?_, ?_⟩
  · intro part s e hc hs he
    simp only [parseToken, hc, hs, he, if_true]
    split_ifs with h
    · exact iff_of_true rfl (by omega)
    · exact iff_of_false (by simp) (by omega)
  · intro part n hc hn
    simp only [parseToken, hc, hn, Bool.false_eq_true, if_false]
    split_ifs with h
    · exact iff_of_true rfl h
    · exact iff_of_false (by simp) h
  · intro part
    by_cases hc : containsC '-' (pyStripL part) = true
    · simp only [parseToken, hc, if_true]
      cases h1 : pythonInt (splitFirst '-' (pyStripL part)).1 with
      | none => simp [hc]
      | some s =>
        cases h2 : pythonInt (splitFirst '-' (pyStripL part)).2 with
        | none => simp [hc]
        | some e =>
          refine iff_of_false ?_ (by simp)
          rintro ⟨t, ht⟩
          split at ht <;> (try split at ht) <;> (try split at ht) <;> simp_all
    · rw [Bool.not_eq_true] at hc
      simp only [parseToken, hc, Bool.false_eq_true, if_false]
      cases h1 : pythonInt (pyStripL part) with
      | none => simp [hc]
      | some n =>
        refine iff_of_false ?_ (by simp)
        rintro ⟨t, ht⟩
        split at ht <;> (try split at ht) <;> simp_all
  · intro sel e
    rw [parse_selection_error_iff_parseParts, parseParts_error_iff]

/-- Witness for C5 at the spec's own failing examples `parse("0-2", 5)`,
`parse("9", 5)` and a non-numeric token. -/
theorem parse_selection_error_kinds_witness :
    parseToken 5 "0-2".data = .error (ParseErr.invalidRange "0-2".data) ∧
    parseToken 5 "9".data = .error (ParseErr.outOfRange 9) ∧
    (∃ t, parseToken 5 "x".data = .error (ParseErr.notANumber t)) ∧
    parse_selection "0-2" 5 = .error (ParseErr.invalidRange "0-2".data) := by
  have h := parse_selection_error_kinds 5
  refine ⟨?_, ?_, ?_, ?_⟩
  · exact (h.1 "0-2".data 0 2 rfl rfl rfl).mpr (by decide)
  · exact (h.2.1 "9".data 9 rfl rfl).mpr (by decide)
  · exact (h.2.2.1 "x".data).mpr (Or.inl ⟨rfl, rfl⟩)
  · exact (h.2.2.2 "0-2" (ParseErr.invalidRange "0-2".data)).mpr
      ⟨[], "0-2".data, [], rfl, by simp,
        (h.1 "0-2".data 0 2 rfl rfl rfl).mpr (by decide)⟩

/-- One round of `MySQLBackupTool.select_databases`'s prompt loop, as a
function of the string the operator entered: empty input returns `[]`
("user declined") before `parse_selection` is ever called; `all`
(case-insensitively) returns every database; otherwise the selection is
parsed and the indices are mapped to database names (`databases[i-1]`). -/
def select_databases_iter (databases : List String) (selection : String) :
    Except ParseErr (List String) :=
  if selection = "" then .ok []
  else if selection.toLower = "all" then .ok databases
  else
    match parse_selection selection databases.length with
    | .error e => .error e
    | .ok idxs => .ok (idxs.filterMap (fun i => databases[(i - 1).toNat]?))

/-- C4 counterexample: `parse_selection` itself raises on the empty string
(`int('')` is a `ValueError`, our `NotANumber`), rather than returning an
empty "declined" result. -/
theorem parse_selection_empty_errors :
    parse_selection "" 5 = .error (ParseErr.notANumber []) := rfl

/-- C4 (amended): the empty-input check lives in the caller
`select_databases`, which returns the empty "user declined" result without
error before `parse_selection` is ever invoked; `parse_selection` itself
fails with `NotANumber` on the empty string for every `max_num`. -/
theorem select_databases_empty_abort :
    (∀ databases : List String, select_databases_iter databases "" = .ok []) ∧
    (∀ max_num : ℕ, parse_selection "" max_num = .error (ParseErr.notANumber [])) :=
  ⟨fun _ => rfl, fun _ => rfl⟩

/-- The path components of a POSIX `pathlib` path: split on `/`, dropping
empty and `.` components (what `PurePosixPath.parts` holds, less the root). -/
def pathParts (s : String) : List String :=
  ((splitChar '/' s.data).map (fun l => String.mk l)).filter
    (fun p => decide (p ≠ "" ∧ p ≠ "."))

def isAbsolute (s : String) : Bool := s.data.head? = some '/' 

/-- `str()` of a `pathlib` path assembled from its root and components. -/
def joinParts (isAbs : Bool) (ps : List String) : String :=
  if isAbs then "/" ++ String.intercalate "/" ps
  else if ps.isEmpty then "." else String.intercalate "/" ps

/-- `str(Path(s))`. -/
def pathToStr (s : String) : String := joinParts (isAbsolute s) (pathParts s)

/-- `Path(s).name`: the final path component (empty for `.` or `/`). -/
def pathName (s : String) : String := ((pathParts s).getLast?).getD ""

/-- `str(Path(s).parent)`. -/
def pathParent (s : String) : String :=
  joinParts (isAbsolute s) (pathParts s).dropLast

/-- `Path(s).suffix`: the part of `.name` from its last dot on, and empty
when the name has no dot, starts with its only dot, or ends with a dot
(pathlib: `0 < name.rfind('.') < len(name) - 1`).  In particular the
suffix of `backup.tar.gz` is `.gz`, never `.tar.gz`. -/
def pathSuffix (s : String) : String :=
  let n := (pathName s).data
  if containsC '.' n then
    let r := splitFirst '.' n.reverse
    if r.1 ≠ [] ∧ r.2 ≠ [] then String.mk ('.' :: r.1.reverse) else ""
  else ""

/-- `Path.with_suffix(suf)` at the file-name level: drop the current
suffix, append `suf`. -/
def withSuffix (name suf : String) : String :=
  String.mk (name.data.take (name.data.length - (pathSuffix name).data.length)) ++ suf

/-- The resolved output destination of `MySQLBackupTool`. -/
structure OutputSpec where
  output_dir : String
  custom_filename : Option String
deriving DecidableEq, Repr

/-- `MySQLBackupTool._setup_output_path` (the timestamp is passed in; the
idempotent `mkdir(parents=True, exist_ok=True)` side effect is not
modelled): no output path gives a fresh timestamped directory; a path whose
`Path.suffix` is one of `.zip`, `.tar`, `.tar.gz` is split into parent
directory and explicit file name; anything else is a directory. -/
def _setup_output_path (output_path : Option String) (timestamp : String) : OutputSpec :=
  match output_path with
  | none => ⟨pathToStr ("./mysql_backup_" ++ timestamp), none⟩
  | some s =>
    if pathSuffix s ∈ [".zip", ".tar", ".tar.gz"] then
      ⟨pathParent s, some (pathName s)⟩
    else ⟨pathToStr s, none⟩

/-- The archive file name chosen by `MySQLBackupTool.compress_backups`:
the custom file name coerced to end in `.tar.gz` (replacing a `.zip`/`.tar`
suffix, appending otherwise), or the timestamped default.  The
`str(tar_file).endswith('.tar.gz')` test on the full path is equivalent to
the test on the file name, since the name is the final `/`-free component
and `.tar.gz` contains no `/`. -/
def compress_tar_name (custom_filename : Option String) (timestamp : String) : String :=
  match custom_filename with
  | none => "mysql_backup_" ++ timestamp ++ ".tar.gz"
  | some name =>
    if ".tar.gz".data.isSuffixOf name.data then name
    else if pathSuffix name ∈ [".zip", ".tar"] then withSuffix name ".tar.gz"
    else withSuffix name (pathSuffix name ++ ".tar.gz")

/-- C1: evaluation of the Output Path Resolver at the divergence point.  A
`.tar.gz` output path is NOT classified as an explicit archive filename --
`Path.suffix` of `backup.tar.gz` is `.gz`, which is not in
`['.zip', '.tar', '.tar.gz']`, so the whole string becomes the working
directory (contradicting the claim and the program's own `--help` text);
`.zip` (and `.tar`) outputs are classified as the claim states, with the
`.zip` name coerced to `.tar.gz` at packaging time. -/
theorem setup_output_path_targz_eval :
    _setup_output_path (some "backup.tar.gz") "20250901_143022" =
      ⟨"backup.tar.gz", none⟩ ∧
    pathSuffix "backup.tar.gz" = ".gz" ∧
    _setup_output_path (some "server_backup.zip") "20250901_143022" =
      ⟨".", some "server_backup.zip"⟩ ∧
    compress_tar_name (some "server_backup.zip") "20250901_143022" =
      "server_backup.tar.gz" := by
  refine ⟨by decide, rfl, by decide, by decide⟩

/-- The system databases `MySQLBackupTool.get_databases` filters out. -/
def system_dbs : List String :=
  ["information_schema", "performance_schema", "mysql", "sys"]

/-- `MySQLBackupTool.get_databases`: `[]` without a connection, otherwise
the server's `SHOW DATABASES` list with the system databases removed. -/
def get_databases (connected : Bool) (server_databases : List String) : List String :=
  if connected then server_databases.filter (fun db => decide (db ∉ system_dbs))
  else []

/-- C9: `get_databases` returns exactly the server's list with
`information_schema`, `performance_schema`, `mysql` and `sys` removed,
order otherwise preserved, so a system database is never offered for
selection or dumped. -/
theorem get_databases_filters_system (server_databases : List String) :
    get_databases true server_databases =
      server_databases.filter (fun db =>
        decide (db ≠ "information_schema" ∧ db ≠ "performance_schema" ∧
          db ≠ "mysql" ∧ db ≠ "sys")) ∧
    List.Sublist (get_databases true server_databases) server_databases ∧
    ∀ db ∈ get_databases true server_databases, db ∉ system_dbs := by
  refine ⟨?_, ?_, ?_⟩
  · simp only [get_databases, if_true]
    apply List.filter_congr
    intro x _
    rw [decide_eq_decide]
    simp [system_dbs]
  · simp only [get_databases, if_true]
    exact List.filter_sublist _
  · intro db hdb
    simp only [get_databases, if_true, List.mem_filter, decide_eq_true_eq] at hdb
    exact hdb.2

/-- Witness for C9: a concrete server list with interleaved system
databases. -/
theorem get_databases_filters_system_witness :
    get_databases true ["mysql", "shop", "information_schema", "blog", "sys"] =
      ["shop", "blog"] ∧
    "mysql" ∉ get_databases true ["mysql", "shop"] := by
  constructor
  · rw [(get_databases_filters_system
      ["mysql", "shop", "information_schema", "blog", "sys"]).1]
    rfl
  · intro hmem
    exact (get_databases_filters_system ["mysql", "shop"]).2.2 "mysql" hmem
      (by simp [system_dbs])

/-- The external `mysqldump` collaborator: whether the binary is on the
`PATH`, and the exit status it returns per database. -/
structure DumpEnv where
  tool_found : Bool
  exit_code : String → ℤ

/-- `MySQLBackupTool.dump_database(db_name, output_file)` over a file
system modelled as the set of file names in the output directory:
`open(output_file, 'w')` creates the target file, then `mysqldump` runs;
exit status `0` keeps the file and reports success; a non-zero exit prints
the error, deletes the partial file and reports failure; a missing binary
(`FileNotFoundError`) reports failure without deleting the (empty) file. -/
def dump_database (env : DumpEnv) (db_name : String) (fs : Finset String) :
    Bool × Finset String :=
  let output_file := db_name ++ ".sql"
  let fs1 := insert output_file fs
  if env.tool_found = false then (false, fs1)
  else if env.exit_code db_name = 0 then (true, fs1)
  else (false, fs1.erase output_file)

/-- One iteration of the dump loop in `MySQLBackupTool.create_backup`:
append the `.sql` file to `backup_files` on success, only update the
progress display on failure. -/
def dumpStep (env : DumpEnv) (st : List String × Finset String) (db : String) :
    List String × Finset String :=
  let r := dump_database env db st.2
  (if r.1 then st.1 ++ [db ++ ".sql"] else st.1, r.2)

/-- The dump loop of `MySQLBackupTool.create_backup`: every selected
database is processed in input order; the returned `backup_files` list is
exactly what `create_backup` hands to `compress_backups` (when
non-empty). -/
def create_backup (env : DumpEnv) (databases : List String) (fs : Finset String) :
    List String × Finset String :=
  databases.foldl (dumpStep env) ([], fs)

lemma sql_name_inj {a b : String} (h : a ++ ".sql" = b ++ ".sql") : a = b := by
  have hd : a.data ++ ".sql".data = b.data ++ ".sql".data := congrArg String.data h
  cases a
  cases b
  exact congrArg String.mk (by simpa using hd)

lemma create_backup_go_files (env : DumpEnv) (htool : env.tool_found = true) :
    ∀ (databases : List String) (acc : List String) (fs : Finset String),
      (databases.foldl (dumpStep env) (acc, fs)).1 =
        acc ++ (databases.filter (fun db => decide (env.exit_code db = 0))).map
          (fun db => db ++ ".sql") := by
  intro databases
  induction databases with
  | nil => intro acc fs; simp
  | cons d ds ih =>
    intro acc fs
    by_cases hd : env.exit_code d = 0
    · rw [List.foldl_cons]
      have hstep : dumpStep env (acc, fs) d =
          (acc ++ [d ++ ".sql"], insert (d ++ ".sql") fs) := by
        simp [dumpStep, dump_database, htool, hd]
      rw [hstep, ih]
      simp [hd]
    · rw [List.foldl_cons]
      have hstep : dumpStep env (acc, fs) d =
          (acc, (insert (d ++ ".sql") fs).erase (d ++ ".sql")) := by
        simp [dumpStep, dump_database, htool, hd]
      rw [hstep, ih]
      simp [hd]

lemma create_backup_go_absent (env : DumpEnv) (f : String) :
    ∀ (databases : List String) (acc : List String) (fs : Finset String),
      f ∉ fs → (∀ db ∈ databases, db ++ ".sql" ≠ f) →
      f ∉ (databases.foldl (dumpStep env) (acc, fs)).2 := by
  intro databases
  induction databases with
  | nil => intro acc fs hf _; exact hf
  | cons d ds ih =>
    intro acc fs hf hne
    rw [List.foldl_cons]
    have hd : d ++ ".sql" ≠ f := hne d (by simp)
    have hf1 : f ∉ (dumpStep env (acc, fs) d).2 := by
      simp only [dumpStep, dump_database]
      split_ifs <;>
        simp only [Finset.mem_insert, Finset.mem_erase] <;>
        intro hmem <;>
        first
          | exact (by rcases hmem with h | h; exact hd h.symm; exact hf h)
          | exact (by rcases hmem.2 with h | h; exact hd h.symm; exact hf h)
    have : (dumpStep env (acc, fs) d) =
        ((dumpStep env (acc, fs) d).1, (dumpStep env (acc, fs) d).2) := rfl
    rw [this]
    exact ih _ _ hf1 (fun db hdb => hne db (by simp [hdb]))

lemma create_backup_go_failed_deleted (env : DumpEnv) (htool : env.tool_found = true)
    (db : String) :
    ∀ (databases : List String) (acc : List String) (fs : Finset String),
      db ∈ databases → env.exit_code db ≠ 0 →
      (db ++ ".sql") ∉ (databases.foldl (dumpStep env) (acc, fs)).2 := by
  intro databases
  induction databases with
  | nil => intro acc fs h; cases h
  | cons d ds ih =>
    intro acc fs hmem hexit
    by_cases hds : db ∈ ds
    · rw [List.foldl_cons]
      have : (dumpStep env (acc, fs) d) =
          ((dumpStep env (acc, fs) d).1, (dumpStep env (acc, fs) d).2) := rfl
      rw [this]
      exact ih _ _ hds hexit
    · have hd : db = d := by
        rcases List.mem_cons.mp hmem with h | h
        · exact h
        · exact absurd h hds
      subst hd
      rw [List.foldl_cons]
      have hstep : dumpStep env (acc, fs) db =
          (acc, (insert (db ++ ".sql") fs).erase (db ++ ".sql")) := by
        simp [dumpStep, dump_database, htool, hexit]
      rw [hstep]
      apply create_backup_go_absent
      · simp
      · intro d' hd' heq
        exact hds (sql_name_inj heq ▸ hd')

/-- C6: with `mysqldump` available, a non-zero exit for one database
deletes its partially written `<name>.sql` file (never left on disk) and
records it as failed; the loop continues with the remaining databases in
input order, and the `backup_files` list handed to the archive packager
contains exactly the databases whose dump succeeded, in input order. -/
theorem create_backup_failure_handling (env : DumpEnv) (databases : List String)
    (fs : Finset String) (htool : env.tool_found = true) :
    (create_backup env databases fs).1 =
      (databases.filter (fun db => decide (env.exit_code db = 0))).map
        (fun db => db ++ ".sql") ∧
    ∀ db ∈ databases, env.exit_code db ≠ 0 →
      (db ++ ".sql") ∉ (create_backup env databases fs).2 := by
  constructor
  · have h := create_backup_go_files env htool databases [] fs
    simpa [create_backup] using h
  · intro db hdb hexit
    exact create_backup_go_failed_deleted env htool db databases [] fs hdb hexit

/-- Witness for C6: three databases, the middle one failing. -/
theorem create_backup_failure_handling_witness :
    (create_backup ⟨true, fun db => if db = "b" then 1 else 0⟩ ["a", "b", "c"] ∅).1 =
      ["a.sql", "c.sql"] ∧
    ("b.sql" ∉
      (create_backup ⟨true, fun db => if db = "b" then 1 else 0⟩ ["a", "b", "c"] ∅).2) := by
  have h := create_backup_failure_handling ⟨true, fun db => if db = "b" then 1 else 0⟩
    ["a", "b", "c"] ∅ rfl
  constructor
  · rw [h.1]
    decide
  · have hb := h.2 "b" (by simp) (by decide)
    simpa using hb

/-- The failure modes of the archive library as `compress_backups` can see
them: `tarfile.open` raising, or `tf.add` raising on a member. -/
structure PackEnv where
  create_fails : Bool
  add_fails : String → Bool

/-- The packaging step of `MySQLBackupTool.compress_backups` over a file
system (set of file names): if `tarfile.open` raises, nothing changed; if
the first failing `tf.add` raises, the partial archive is on disk but no
input was touched; on success every member was added, then every input
dump file is unlinked, and the archive path is returned.  Any exception is
caught and `None` returned. -/
def compress_backups (env : PackEnv) (backup_files : List String)
    (tar_file : String) (fs : Finset String) : Option String × Finset String :=
  if env.create_fails then (none, fs)
  else
    match backup_files.find? env.add_fails with
    | some _ => (none, insert tar_file fs)
    | none =>
      (some tar_file, backup_files.foldl (fun s f => s.erase f) (insert tar_file fs))

lemma mem_foldl_erase (a : String) :
    ∀ (l : List String) (s : Finset String),
      a ∈ l.foldl (fun s f => s.erase f) s ↔ a ∈ s ∧ a ∉ l := by
  intro l
  induction l with
  | nil => intro s; simp
  | cons x xs ih =>
    intro s
    rw [List.foldl_cons, ih]
    simp only [Finset.mem_erase, List.mem_cons]
    constructor
    · rintro ⟨⟨hne, hs⟩, hxs⟩
      exact ⟨hs, by rintro (rfl | h); exact hne rfl; exact hxs h⟩
    · rintro ⟨hs, hn⟩
      exact ⟨⟨fun he => hn (Or.inl he), hs⟩, fun h => hn (Or.inr h)⟩

/-- C7: `compress_backups` is atomic over its input dump files: on success
it returns the archive path and every input dump file has been deleted
(the archive is the sole record); when the archive cannot be created or a
member cannot be written it returns `None` and every input dump file is
exactly as it was on disk. -/
theorem compress_backups_atomic (env : PackEnv) (backup_files : List String)
    (tar_file : String) (fs : Finset String) (htar : tar_file ∉ backup_files) :
    (env.create_fails = false → (∀ f ∈ backup_files, env.add_fails f = false) →
      (compress_backups env backup_files tar_file fs).1 = some tar_file ∧
      (∀ f ∈ backup_files, f ∉ (compress_backups env backup_files tar_file fs).2) ∧
      tar_file ∈ (compress_backups env backup_files tar_file fs).2) ∧
    ((env.create_fails = true ∨ ∃ f ∈ backup_files, env.add_fails f = true) →
      (compress_backups env backup_files tar_file fs).1 = none ∧
      ∀ f ∈ backup_files,
        (f ∈ (compress_backups env backup_files tar_file fs).2 ↔ f ∈ fs)) := by
  constructor
  · intro hc hadd
    have hfind : backup_files.find? env.add_fails = none :=
      List.find?_eq_none.mpr (fun x hx => by simp [hadd x hx])
    simp only [compress_backups, hc, Bool.false_eq_true, if_false, hfind]
    refine ⟨trivial, ?_, ?_⟩
    · intro f hf
      rw [mem_foldl_erase]
      rintro ⟨-, hnot⟩
      exact hnot hf
    · rw [mem_foldl_erase]
      exact ⟨Finset.mem_insert_self _ _, htar⟩
  · intro hfail
    rcases hfail with hc | ⟨f0, hf0, hadd0⟩
    · simp [compress_backups, hc]
    · have hfind : (backup_files.find? env.add_fails).isSome := by
        rw [List.find?_isSome]
        exact ⟨f0, hf0, hadd0⟩
      rcases hopt : backup_files.find? env.add_fails with - | g
      · rw [hopt] at hfind
        cases hfind
      · by_cases hc : env.create_fails = true
        · simp [compress_backups, hc]
        · rw [Bool.not_eq_true] at hc
          simp only [compress_backups, hc, Bool.false_eq_true, if_false, hopt]
          refine ⟨trivial, ?_⟩
          intro f hf
          simp only [Finset.mem_insert]
          constructor
          · rintro (rfl | h)
            · exact absurd hf htar
            · exact h
          · exact fun h => Or.inr h

/-- Witness for C7: one input file, success and member-failure runs. -/
theorem compress_backups_atomic_witness :
    (compress_backups ⟨false, fun _ => false⟩ ["a.sql"] "b.tar.gz" {"a.sql"}).1 =
      some "b.tar.gz" ∧
    "a.sql" ∉ (compress_backups ⟨false, fun _ => false⟩ ["a.sql"] "b.tar.gz" {"a.sql"}).2 ∧
    (compress_backups ⟨false, fun f => decide (f = "a.sql")⟩ ["a.sql"] "b.tar.gz"
      {"a.sql"}).1 = none ∧
    "a.sql" ∈ (compress_backups ⟨false, fun f => decide (f = "a.sql")⟩ ["a.sql"] "b.tar.gz"
      {"a.sql"}).2 := by
  have h1 := compress_backups_atomic ⟨false, fun _ => false⟩ ["a.sql"] "b.tar.gz"
    {"a.sql"} (by decide)
  have h2 := compress_backups_atomic ⟨false, fun f => decide (f = "a.sql")⟩ ["a.sql"]
    "b.tar.gz" {"a.sql"} (by decide)
  have hok := h1.1 rfl (by intro f _; rfl)
  have hfail := h2.2 (Or.inr ⟨"a.sql", by simp, by decide⟩)
  exact ⟨hok.1, hok.2.1 "a.sql" (by simp), hfail.1,
    (hfail.2 "a.sql" (by simp)).mpr (by decide)⟩

/-- A tar archive modelled as its ordered member list: entry name and byte
content.  `compress_backups` adds each input file under
`arcname=sql_file.name` (its base file name, so all entries are
top-level). -/
def pack_archive (files : List (String × List ℕ)) : List (String × List ℕ) :=
  files.map (fun e => (pathName e.1, e.2))

/-- One entry of `tarfile.extractall` into the extraction directory: a
later entry overwrites an earlier file of the same name. -/
def extractOne (acc : List (String × List ℕ)) (e : String × List ℕ) :
    List (String × List ℕ) :=
  acc.filter (fun x => decide (x.1 ≠ e.1)) ++ [e]

/-- The files on disk in the fresh extraction directory after
`tf.extractall(extract_dir)`. -/
def extractedFiles (archive : List (String × List ℕ)) : List (String × List ℕ) :=
  archive.foldl extractOne []

/-- `extract_dir.glob("*.sql")` membership: the name ends in `.sql` and is
not hidden (glob never matches a leading dot). -/
def sqlGlob (name : String) : Bool :=
  ".sql".data.isSuffixOf name.data && decide (name.data.head? ≠ some '.')

/-- `MySQLRestoreTool.extract_backup` after a successful extraction of
`archive`: collect the `*.sql` files, `None` when there are none (the
missing-tar-file and extraction-exception paths, which also return `None`,
are not modelled). -/
def extract_backup (archive : List (String × List ℕ)) :
    Option (List (String × List ℕ)) :=
  let sql_files := (extractedFiles archive).filter (fun e => sqlGlob e.1)
  if sql_files.isEmpty then none else some sql_files

lemma extractOne_foldl_of_nodup :
    ∀ (xs acc : List (String × List ℕ)),
      ((acc ++ xs).map Prod.fst).Nodup →
      xs.foldl extractOne acc = acc ++ xs := by
  intro xs
  induction xs with
  | nil => intro acc _; simp
  | cons x xs ih =>
    intro acc h
    have hx : x.1 ∉ acc.map Prod.fst := by
      rw [List.map_append, List.map_cons] at h
      have hd := List.disjoint_of_nodup_append h
      exact fun hmem => hd hmem (by simp)
    have hfilter : acc.filter (fun y => decide (y.1 ≠ x.1)) = acc := by
      apply List.filter_eq_self.mpr
      intro a ha
      simp only [decide_eq_true_eq]
      exact fun he => hx (by rw [← he]; exact List.mem_map_of_mem _ ha)
    rw [List.foldl_cons]
    have hstep : extractOne acc x = acc ++ [x] := by
      rw [extractOne, hfilter]
    rw [hstep, ih (acc ++ [x]) (by simpa using h)]
    simp

/-- C8: round trip.  Packing a set of dump files (distinct base names, all
matching the `*.sql` convention) and then extracting the archive yields
exactly the same file names (the base names, as top-level entries) with
the same byte contents as the originals. -/
theorem pack_unpack_roundtrip (files : List (String × List ℕ))
    (hne : files ≠ [])
    (hsql : ∀ e ∈ files, sqlGlob (pathName e.1) = true)
    (hnodup : (files.map (fun e => pathName e.1)).Nodup) :
    extract_backup (pack_archive files) =
      some (files.map (fun e => (pathName e.1, e.2))) := by
  have h1 : (pack_archive files).map Prod.fst = files.map (fun e => pathName e.1) := by
    simp [pack_archive, List.map_map, Function.comp]
  have h2 : extractedFiles (pack_archive files) = pack_archive files := by
    have := extractOne_foldl_of_nodup (pack_archive files) []
    rw [List.nil_append] at this
    exact this (h1 ▸ hnodup)
  have h3 : (pack_archive files).filter (fun e => sqlGlob e.1) = pack_archive files := by
    apply List.filter_eq_self.mpr
    intro a ha
    simp only [pack_archive, List.mem_map] at ha
    obtain ⟨e, he, rfl⟩ := ha
    exact hsql e he
  have h4 : (pack_archive files).isEmpty = false := by
    rcases files with - | ⟨x, xs⟩
    · exact absurd rfl hne
    · rfl
  simp only [extract_backup, h2, h3, h4, Bool.false_eq_true, if_false]
  rfl

/-- Witness for C8: two dump files from a subdirectory. -/
theorem pack_unpack_roundtrip_witness :
    extract_backup (pack_archive [("dumps/alpha.sql", [1, 2]), ("dumps/beta.sql", [3])]) =
      some [("alpha.sql", [1, 2]), ("beta.sql", [3])] := by
  have h := pack_unpack_roundtrip
    [("dumps/alpha.sql", [1, 2]), ("dumps/beta.sql", [3])]
    (by decide) (by decide) (by decide)
  rw [h]
  rfl

/-- The operator's answer to the conflict prompt of
`MySQLRestoreTool.restore_backup`. -/
inductive RAction where
  | overwrite
  | skip
  | cancel
deriving DecidableEq, Repr

/-- The collaborators of `MySQLRestoreTool.restore_backup`: the server
connection, the initial confirmation, `database_exists`, the conflict
prompt answer (`none` = the operator pressed Enter), and the success of
`drop_database` / `create_database` / `restore_database` per database. -/
structure RestoreEnv where
  connect_ok : Bool
  confirm : Bool
  db_exists : String → Bool
  answer : String → Option RAction
  drop_ok : String → Bool
  create_ok : String → Bool
  restore_ok : String → Bool

/-- What the restore loop does, step by step. -/
inductive REvent where
  | created (db : String)
  | createFailed (db : String)
  | dropped (db : String)
  | dropFailed (db : String)
  | restored (db : String)
  | restoreFailed (db : String)
  | skipped (db : String)
  | cancelled
deriving DecidableEq, Repr

/-- `Prompt.ask(..., choices=["overwrite", "skip", "cancel"],
default="skip")`: pressing Enter yields the default `skip`. -/
def decideAction (env : RestoreEnv) (db : String) : RAction :=
  (env.answer db).getD RAction.skip

/-- The trailing `restore_database` call shared by every branch that did
not `continue` or `break`: its events and its contribution to
`success_count`. -/
def restorePhase (env : RestoreEnv) (db : String) : List REvent × ℕ :=
  if env.restore_ok db then ([REvent.restored db], 1)
  else ([REvent.restoreFailed db], 0)

/-- One iteration of the per-file loop of
`MySQLRestoreTool.restore_backup`; `none` means the operator chose
`cancel`, which `break`s the loop. -/
def restoreStep (env : RestoreEnv) (db : String) : Option (List REvent × ℕ) :=
  if env.db_exists db then
    match decideAction env db with
    | RAction.cancel => none
    | RAction.skip => some ([REvent.skipped db], 0)
    | RAction.overwrite =>
      if env.drop_ok db then
        if env.create_ok db then
          some (REvent.dropped db :: REvent.created db :: (restorePhase env db).1,
            (restorePhase env db).2)
        else some ([REvent.dropped db, REvent.createFailed db], 0)
      else some ([REvent.dropFailed db], 0)
  else
    if env.create_ok db then
      some (REvent.created db :: (restorePhase env db).1, (restorePhase env db).2)
    else some ([REvent.createFailed db], 0)

/-- The per-file loop over the extracted dump files, accumulating events
and `success_count`; `cancel` stops it immediately, everything already done
stays done. -/
def restoreLoop (env : RestoreEnv) : List String → List REvent × ℕ
  | [] => ([], 0)
  | db :: rest =>
    match restoreStep env db with
    | none => ([REvent.cancelled], 0)
    | some r =>
      let rr := restoreLoop env rest
      (r.1 ++ rr.1, r.2 + rr.2)

/-- The observable outcome of `MySQLRestoreTool.restore_backup`: its return
value, whether the extraction directory was removed (`shutil.rmtree`), the
loop's events and the final success count. -/
structure RestoreOutcome where
  ret : Bool
  extract_dir_removed : Bool
  events : List REvent
  success_count : ℕ
deriving DecidableEq, Repr

/-- `MySQLRestoreTool.restore_backup` given the extracted dump file names
(stems): a failed connection or an extraction yielding no `.sql` files
returns `False` early; declining the initial confirmation returns `False`
with the extraction directory still on disk; otherwise the per-file loop
runs and only then is the extraction directory removed, the return value
being `success_count > 0`. -/
def restore_backup (env : RestoreEnv) (sql_files : List String) : RestoreOutcome :=
  if env.connect_ok = false then ⟨false, false, [], 0⟩
  else if sql_files.isEmpty then ⟨false, false, [], 0⟩
  else if env.confirm = false then ⟨false, false, [], 0⟩
  else
    let r := restoreLoop env sql_files
    ⟨decide (0 < r.2), true, r.1, r.2⟩

/-- C3: the per-file decision table of the restore loop.  A missing target
database is created and then restored; an existing one prompts the
operator (Enter defaults to skip); `cancel` stops the whole loop at once,
keeping earlier work; `skip` does nothing and continues; `overwrite` drops
then recreates before restoring, and a failed drop or create skips that
file and continues with the rest. -/
theorem restore_decision_table (env : RestoreEnv) (db : String) (rest : List String) :
    (env.answer db = none → decideAction env db = RAction.skip) ∧
    (env.db_exists db = false → env.create_ok db = true →
      restoreLoop env (db :: rest) =
        (REvent.created db :: (restorePhase env db).1 ++ (restoreLoop env rest).1,
          (restorePhase env db).2 + (restoreLoop env rest).2)) ∧
    (env.db_exists db = false → env.create_ok db = false →
      restoreLoop env (db :: rest) =
        (REvent.createFailed db :: (restoreLoop env rest).1,
          (restoreLoop env rest).2)) ∧
    (env.db_exists db = true → decideAction env db = RAction.cancel →
      restoreLoop env (db :: rest) = ([REvent.cancelled], 0)) ∧
    (env.db_exists db = true → decideAction env db = RAction.skip →
      restoreLoop env (db :: rest) =
        (REvent.skipped db :: (restoreLoop env rest).1, (restoreLoop env rest).2)) ∧
    (env.db_exists db = true → decideAction env db = RAction.overwrite →
      env.drop_ok db = true → env.create_ok db = true →
      restoreLoop env (db :: rest) =
        (REvent.dropped db :: REvent.created db ::
            (restorePhase env db).1 ++ (restoreLoop env rest).1,
          (restorePhase env db).2 + (restoreLoop env rest).2)) ∧
    (env.db_exists db = true → decideAction env db = RAction.overwrite →
      env.drop_ok db = false →
      restoreLoop env (db :: rest) =
        (REvent.dropFailed db :: (restoreLoop env rest).1,
          (restoreLoop env rest).2)) ∧
    (env.db_exists db = true → decideAction env db = RAction.overwrite →
      env.drop_ok db = true → env.create_ok db = false →
      restoreLoop env (db :: rest) =
        (REvent.dropped db :: REvent.createFailed db :: (restoreLoop env rest).1,
          (restoreLoop env rest).2)) := by
  refine ⟨?_, ?_, ?_, ?_, ?_, ?_, ?_, ?_⟩
  · intro h
    simp [decideAction, h]
  · intro h1 h2
    simp [restoreLoop, restoreStep, h1, h2]
  · intro h1 h2
    simp [restoreLoop, restoreStep, h1, h2]
  · intro h1 h2
    simp [restoreLoop, restoreStep, h1, h2]
  · intro h1 h2
    simp [restoreLoop, restoreStep, h1, h2]
  · intro h1 h2 h3 h4
    simp [restoreLoop, restoreStep, h1, h2, h3, h4]
  · intro h1 h2 h3
    simp [restoreLoop, restoreStep, h1, h2, h3]
  · intro h1 h2 h3 h4
    simp [restoreLoop, restoreStep, h1, h2, h3, h4]

/-- Witness for C3: a `cancel` on the first of three files stops the loop
at once; a fresh database is created and restored. -/
theorem restore_decision_table_witness :
    restoreLoop
      ⟨true, true, fun _ => true, fun _ => some RAction.cancel,
        fun _ => true, fun _ => true, fun _ => true⟩
      ["a", "b", "c"] = ([REvent.cancelled], 0) ∧
    restoreLoop
      ⟨true, true, fun _ => false, fun _ => none,
        fun _ => true, fun _ => true, fun _ => true⟩
      ["a"] = ([REvent.created "a", REvent.restored "a"], 1) := by
  constructor
  · exact (restore_decision_table
      ⟨true, true, fun _ => true, fun _ => some RAction.cancel,
        fun _ => true, fun _ => true, fun _ => true⟩ "a" ["b", "c"]).2.2.2.1 rfl rfl
  · have h := (restore_decision_table
      ⟨true, true, fun _ => false, fun _ => none,
        fun _ => true, fun _ => true, fun _ => true⟩ "a" []).2.1 rfl rfl
    rw [h]
    rfl

/-- C10: on the happy extraction path, declining the initial "Do you want
to proceed with the restore?" confirmation makes `restore_backup` return
`False` before the cleanup step, leaving the extraction directory (and the
extracted `.sql` files inside it) on disk; the extraction directory is
removed exactly when the confirmation is accepted, i.e. only after the
per-file loop has completed or been cancelled from within it. -/
theorem restore_confirm_decline_frame (env : RestoreEnv) (sql_files : List String)
    (hconn : env.connect_ok = true) (hne : sql_files ≠ []) :
    (env.confirm = false →
      restore_backup env sql_files = ⟨false, false, [], 0⟩) ∧
    (env.confirm = true →
      (restore_backup env sql_files).extract_dir_removed = true) := by
  have hempty : sql_files.isEmpty = false := by
    rcases sql_files with - | ⟨x, xs⟩
    · exact absurd rfl hne
    · rfl
  constructor
  · intro h
    simp [restore_backup, hconn, hempty, h]
  · intro h
    simp [restore_backup, hconn, hempty, h]

/-- Witness for C10: one extracted file, operator declines / accepts. -/
theorem restore_confirm_decline_frame_witness :
    restore_backup
      ⟨true, false, fun _ => false, fun _ => none,
        fun _ => true, fun _ => true, fun _ => true⟩
      ["a"] = ⟨false, false, [], 0⟩ ∧
    (restore_backup
      ⟨true, true, fun _ => false, fun _ => none,
        fun _ => true, fun _ => true, fun _ => true⟩
      ["a"]).extract_dir_removed = true := by
  constructor
  · exact (restore_confirm_decline_frame
      ⟨true, false, fun _ => false, fun _ => none,
        fun _ => true, fun _ => true, fun _ => true⟩ ["a"] rfl (by simp)).1 rfl
  · exact (restore_confirm_decline_frame
      ⟨true, true, fun _ => false, fun _ => none,
        fun _ => true, fun _ => true, fun _ => true⟩ ["a"] rfl (by simp)).2 rfl

end Mdump
